import Mathlib

/-!
# Verification of the ContactListProcessor passes

A shallow embedding of `contact-list-processor.py`. Python strings are
modelled as `List Char`; each transformation pass of the source is
translated into an executable Lean function that mirrors the Python
loop structure (loops become `List.foldl` over an explicit state, or
structural recursion). Machine behaviour of the Python string/regex
primitives used by the source (`strip`, `upper`, `lower`, `split`,
`replace`, `startswith`, and the concrete regular expressions) is
modelled character by character.
-/

namespace CLP

/-- Python strings, modelled as lists of characters. -/
abbrev Str := List Char

/-- Character list of a Lean string literal. -/
def chars (s : String) : Str := s.data

/-- The characters removed by Python `str.strip()` (ASCII whitespace:
space, tab, newline, carriage return, vertical tab, form feed).
This is also the character class of the regex `\s` (ASCII). -/
def pyIsWS (c : Char) : Bool :=
  c = ' ' || c = '\t' || c = '\n' || c = '\r' || c = '\x0b' || c = '\x0c'

/-- Python `str.lstrip()`. -/
def lstrip (s : Str) : Str := s.dropWhile pyIsWS

/-- Python `str.rstrip()`. -/
def rstrip (s : Str) : Str := (s.reverse.dropWhile pyIsWS).reverse

/-- Python `str.strip()`. -/
def pyStrip (s : Str) : Str := rstrip (lstrip s)

/-- Python `str.upper()` (ASCII model: the source only compares
ASCII keywords case-insensitively). -/
def pyUpper (s : Str) : Str := s.map Char.toUpper

/-- Python `str.lower()` (ASCII model). -/
def pyLower (s : Str) : Str := s.map Char.toLower

/-- Python `s.split(sep, 1)`: `some (before, after)` at the first
occurrence of `sep`, `none` when `sep` does not occur. -/
def splitOnce (sep : Char) : Str → Option (Str × Str)
  | [] => none
  | c :: t =>
    if c = sep then some ([], t)
    else (splitOnce sep t).map (fun p => (c :: p.1, p.2))

/-- Python `s.split(sep)` on single-character separators satisfying
`test` (used for `split(";")` and `re.split(r"[;,]", ...)`). -/
def splitMany (test : Char → Bool) : Str → List Str
  | [] => [[]]
  | c :: t =>
    if test c then [] :: splitMany test t
    else
      match splitMany test t with
      | [] => [[c]]
      | h :: r => (c :: h) :: r

/-- Python `sep.join(parts)`. -/
def joinSep (sep : Str) : List Str → Str
  | [] => []
  | [x] => x
  | x :: xs => x ++ sep ++ joinSep sep xs

/-- Python substring test `pat in s`. -/
def hasSub (pat : Str) : Str → Bool
  | [] => pat.isEmpty
  | c :: t => pat.isPrefixOf (c :: t) || hasSub pat t

/-- Whether the last character of `s` is `c` (Python `s.endswith(c)`
for a one-character suffix). -/
def lastIs (c : Char) (s : Str) : Bool :=
  match s.getLast? with
  | some d => d = c
  | none => false

/-- `line.strip().upper() == "BEGIN:VCARD"`: the record-begin marker
test shared by every record-scoped pass of the source. -/
def isBeginMark (l : Str) : Bool := pyUpper (pyStrip l) = chars "BEGIN:VCARD"

/-- `line.strip().upper() == "END:VCARD"`. -/
def isEndMark (l : Str) : Bool := pyUpper (pyStrip l) = chars "END:VCARD"

/-! ## `removeOptionalFields` -/

/-- `is_mandatory_field` from the source: the stripped, upper-cased
line is one of the two markers, or starts with one of the strings in
the `mandatory_fields` set (`BEGIN:VCARD`, `END:VCARD`, `VERSION`,
`FN`, `N`, `TEL`), or starts with `TEL;TYPE=`.  The set is iterated as
a disjunction (its iteration order is irrelevant). -/
def is_mandatory_field (line : Str) : Bool :=
  let s := pyUpper (pyStrip line)
  s = chars "BEGIN:VCARD" || s = chars "END:VCARD" ||
  (chars "BEGIN:VCARD").isPrefixOf s || (chars "END:VCARD").isPrefixOf s ||
  (chars "VERSION").isPrefixOf s || (chars "FN").isPrefixOf s ||
  (chars "N").isPrefixOf s || (chars "TEL").isPrefixOf s ||
  (chars "TEL;TYPE=").isPrefixOf s

/-- One iteration of the `removeOptionalFields` loop; the state is
`(lines_without_optional, current_contact)`. -/
def rofStep (st : List Str × List Str) (line : Str) : List Str × List Str :=
  if isBeginMark line then (st.1, [line])
  else if isEndMark line then (st.1 ++ (st.2 ++ [line]) ++ [chars "\n"], [])
  else if is_mandatory_field line then (st.1, st.2 ++ [line])
  else st

/-- `removeOptionalFields` from the source. -/
def removeOptionalFields (lines : List Str) : List Str :=
  (lines.foldl rofStep ([], [])).1

/-! ## `formatContactNumbers` -/

/-- The `type_mapping` dict of `standardize_tel_format`.  Its keys are
upper-case, while the source looks them up with an already lower-cased
key, so the lookup in fact always falls through to its default. -/
def typeMapping : List (Str × Str) :=
  [(chars "CELL", chars "cell"), (chars "MOBILE", chars "cell"),
   (chars "WORK", chars "work"), (chars "HOME", chars "home"),
   (chars "VOICE", chars "voice"), (chars "FAX", chars "fax"),
   (chars "PAGER", chars "pager"), (chars "VIDEO", chars "video"),
   (chars "TEXT", chars "text"), (chars "TEXTPHONE", chars "textphone")]

/-- `type_mapping.get(k, k)`. -/
def lookupType (k : Str) : Str :=
  match typeMapping.find? (fun p => p.1 == k) with
  | some p => p.2
  | none => k

/-- `re.match(r"^TEL;TYPE=[^:]+:", s, re.IGNORECASE)` as a test: the
upper-cased string starts with `TEL;TYPE=`, followed by a nonempty
colon-free run and then a colon. -/
def telTypeColonHead (s : Str) : Bool :=
  (chars "TEL;TYPE=").isPrefixOf (pyUpper s) &&
  (match splitOnce ':' (s.drop 9) with
   | some (t, _) => !t.isEmpty
   | none => false)

/-- `re.match(r"^TEL;([^:]+):(.+)$", s, re.IGNORECASE)`: group 1 is the
(nonempty) text before the first colon after `TEL;`, group 2 the
(nonempty) remainder, which `.` requires to be newline-free (stripped
lines never end in a newline, so `$` is the very end). -/
def telSemiMatch (s : Str) : Option (Str × Str) :=
  if (chars "TEL;").isPrefixOf (pyUpper s) then
    match splitOnce ':' (s.drop 4) with
    | some (t, v) =>
      if !t.isEmpty && !v.isEmpty && !(v.any (· = '\n')) then some (t, v) else none
    | none => none
  else none

/-- `standardize_tel_format` from the source. -/
def standardize_tel_format (line : Str) : Str :=
  let s := pyStrip line
  if telTypeColonHead s then line
  else
    match telSemiMatch s with
    | some (tv, num) =>
      let tl := pyLower (pyStrip tv)
      chars "TEL;TYPE=" ++ lookupType tl ++ ':' :: pyStrip num ++ chars "\n"
    | none =>
      if (chars "TEL:").isPrefixOf (pyUpper s) then
        chars "TEL;TYPE=voice:" ++ pyStrip (s.drop 4) ++ chars "\n"
      else line

/-- The separator class `[\s\-\.\\\/]` of the `+351` removal regex. -/
def isSepChar (c : Char) : Bool :=
  pyIsWS c || c = '-' || c = '.' || c = '\\' || c = '/'

/-- `re.sub(r"\+351[\s\-\.\\\/]*", "", s)`: left-to-right removal of
each occurrence of `+351` together with the greedy run of separator
characters following it.  The flag records whether the scan sits right
after a match (still consuming that run). -/
def plus351Sub : Bool → Str → Str
  | _, '+' :: '3' :: '5' :: '1' :: rest => plus351Sub true rest
  | skip, c :: t =>
    if skip && isSepChar c then plus351Sub true t else c :: plus351Sub false t
  | _, [] => []

/-- The replacement callback of the 9-digit regrouping: keep the run
unless it contains exactly 9 digit characters, in which case emit the
digits as three space-separated 3-digit groups. -/
def windowRepl (run : Str) : Str :=
  let ds := run.filter Char.isDigit
  if ds.length = 9 then
    ds.take 3 ++ ' ' :: (ds.drop 3).take 3 ++ ' ' :: (ds.drop 6).take 3
  else run

/-- Whether a match of length `n` starting at the head of `l` satisfies
the lookahead `(?!\d)`: `n` characters are available and the character
after them (if any) is not a digit. -/
def windowOk (l : Str) (n : Nat) : Bool :=
  if n ≤ l.length then
    match l.get? n with
    | some c => !c.isDigit
    | none => true
  else false

/-- The lazy quantifier `{9,15}?`: the least `n ∈ [9, 15]` accepted at
this position, if any. -/
def findLazy (l : Str) : Option Nat :=
  (List.range' 9 7).find? (windowOk l)

/-- `re.sub(r"(?<!\d)([\d\D]{9,15}?)(?!\d)", replacer, s)`: scan left
to right; at a position whose preceding character (tracked in `prev`,
from the original string) is not a digit, match the shortest window of
9 to 15 arbitrary characters whose follower is not a digit, replace it
via `windowRepl`, and resume after the window.  Fuel-driven recursion
(each step consumes at least one character, so `s.length` suffices). -/
def windowSubGo : Nat → Option Char → Str → Str
  | 0, _, s => s
  | _ + 1, _, [] => []
  | fuel + 1, prev, c :: t =>
    if (prev.map Char.isDigit).getD false then
      c :: windowSubGo fuel (some c) t
    else
      match findLazy (c :: t) with
      | some n =>
        let run := (c :: t).take n
        windowRepl run ++ windowSubGo fuel run.getLast? ((c :: t).drop n)
      | none => c :: windowSubGo fuel (some c) t

/-- The full 9-digit window substitution on a line. -/
def windowSub (s : Str) : Str := windowSubGo s.length none s

/-- `normalize_phone_number` from the source: standardize the TEL
shape, remove `+351` (with separators), then apply the 9-digit window
regrouping when the line mentions `TEL`. -/
def normalize_phone_number (line : Str) : Str :=
  let l1 := standardize_tel_format line
  let l2 := plus351Sub false l1
  if hasSub (chars "TEL") (pyUpper l2) then windowSub l2 else l2

/-- `line.strip().upper().startswith("TEL")`. -/
def telLineTest (line : Str) : Bool :=
  (chars "TEL").isPrefixOf (pyUpper (pyStrip line))

/-- `formatContactNumbers` from the source. -/
def formatContactNumbers (lines : List Str) : List Str :=
  lines.map (fun line =>
    if telLineTest line then normalize_phone_number line else line)

/-! ## `formatContactNames` -/

/-- Build the display name from the value of a structured-name `N:`
line: split on `;`, strip the family (index 0), given (index 1) and
additional (index 2) components, and join the nonempty ones of
`[given, additional, family]` with single spaces (missing components
default to the empty string, as in the source's `len(parts)` guards). -/
def nameFromN (n : Str) : Str :=
  let parts := splitMany (· = ';') n
  let family := pyStrip (parts.getD 0 [])
  let given := pyStrip (parts.getD 1 [])
  let additional := pyStrip (parts.getD 2 [])
  joinSep (chars " ") (([given, additional, family]).filter (fun p => !p.isEmpty))

/-- `stripped.upper().startswith("FN:")`. -/
def isFNLine (l : Str) : Bool := (chars "FN:").isPrefixOf (pyUpper (pyStrip l))

/-- `stripped.upper().startswith("N:")`. -/
def isNLine (l : Str) : Bool := (chars "N:").isPrefixOf (pyUpper (pyStrip l))

/-- `stripped.upper().startswith("BEGIN:VCARD")` (a *prefix* test, not
the exact marker test of the record grouper). -/
def isBeginPre (l : Str) : Bool :=
  (chars "BEGIN:VCARD").isPrefixOf (pyUpper (pyStrip l))

/-- `stripped.upper().startswith("END:VCARD")`. -/
def isEndPre (l : Str) : Bool :=
  (chars "END:VCARD").isPrefixOf (pyUpper (pyStrip l))

/-- One iteration of the scan inside `process_contact` of
`formatContactNames`; the state is `(fn_line, n_line, other_lines)`.
`fn_line`, once set, is a stripped string starting with `FN:` and thus
nonempty, so Python's falsy test `not fn_line` is `Option.isNone`. -/
def fcnScanStep (st : Option Str × Option Str × List Str) (line : Str) :
    Option Str × Option Str × List Str :=
  if isFNLine line then
    (if st.1.isSome then st.1 else some (pyStrip line), st.2.1, st.2.2)
  else if isNLine line then
    (st.1, some ((pyStrip line).drop 2), st.2.2)
  else if isBeginPre line || isEndPre line then
    st
  else
    (st.1, st.2.1, st.2.2 ++ [line])

/-- Rebuild step of `process_contact`: choose the `FN` line kept
(the first one seen, else one synthesized from the last `N` line when
its value is nonempty — Python's `if not fn_line and n_line`), then
emit begin marker, `FN` line (if any), other lines, end marker. -/
def fcnBuild (st : Option Str × Option Str × List Str) : List Str :=
  [chars "BEGIN:VCARD\n"] ++
    (match
      (match st.1 with
       | some f => some f
       | none =>
         match st.2.1 with
         | some n => if n.isEmpty then none else some (chars "FN:" ++ nameFromN n)
         | none => none : Option Str) with
     | some f => [f ++ chars "\n"]
     | none => []) ++
    st.2.2 ++ [chars "END:VCARD\n"]

/-- `process_contact` from `formatContactNames`. -/
def fcnProcessContact (cl : List Str) : List Str :=
  fcnBuild (cl.foldl fcnScanStep (none, none, []))

/-- One iteration of the record-grouping loop of `formatContactNames`;
the state is `(formatted_lines, current_contact)`. -/
def fcnStep (st : List Str × List Str) (line : Str) : List Str × List Str :=
  if isBeginMark line then (st.1, [line])
  else if isEndMark line then
    (st.1 ++ fcnProcessContact (st.2 ++ [line]) ++ [chars "\n"], [])
  else (st.1, st.2 ++ [line])

/-- `formatContactNames` from the source. -/
def formatContactNames (lines : List Str) : List Str :=
  (lines.foldl fcnStep ([], [])).1

/-! ## `autoSetContactTypes` -/

/-- The literal `TEL;TYPE=`. -/
def telPat : Str := chars "TEL;TYPE="

/-- `remove_types_from_line` from the source: on a stripped line
matching `^TEL;TYPE=.*?:` (case-insensitive; equivalently, the
upper-cased stripped line starts with `TEL;TYPE=` and contains a
colon), re-emit `TEL;TYPE=` followed by everything after the first
colon. -/
def remove_types_from_line (line : Str) : Str :=
  let s := pyStrip line
  if telPat.isPrefixOf (pyUpper s) then
    match splitOnce ':' s with
    | some (_, v) => telPat ++ v ++ chars "\n"
    | none => line
  else line

/-- `s.replace("TEL;TYPE=", "")`: left-to-right removal of each
occurrence of the exact (case-sensitive) substring `TEL;TYPE=`,
scanning the original string without revisiting replaced text. -/
def removeOcc : Str → Str
  | 'T' :: 'E' :: 'L' :: ';' :: 'T' :: 'Y' :: 'P' :: 'E' :: '=' :: rest => removeOcc rest
  | c :: t => c :: removeOcc t
  | [] => []

/-- The cleanup in `determine_type`: strip, delete all spaces, then
all dashes, then drop a leading `+351` (else a leading `351`). -/
def dtClean (p : Str) : Str :=
  let n0 := ((pyStrip p).filter (fun c => !(c = ' '))).filter (fun c => !(c = '-'))
  if (chars "+351").isPrefixOf n0 then n0.drop 4
  else if (chars "351").isPrefixOf n0 then n0.drop 3
  else n0

/-- `determine_type` from the source: after `dtClean`, classify by the
first character: `2` → HOME, `9` → CELL, `+` → CELL, otherwise VOICE. -/
def determine_type (p : Str) : Str :=
  if (chars "2").isPrefixOf (dtClean p) then chars "HOME"
  else if (chars "9").isPrefixOf (dtClean p) then chars "CELL"
  else if (chars "+").isPrefixOf (dtClean p) then chars "CELL"
  else chars "VOICE"

/-- The second pass of `autoSetContactTypes` on one line: when the
stripped line upper-starts with `TEL;TYPE=`, remove all occurrences of
`TEL;TYPE=` and, if a digit remains, rewrite the line as
`TEL;TYPE=<determined type>:<value>`. -/
def asctSecond (line : Str) : Str :=
  let s := pyStrip line
  if telPat.isPrefixOf (pyUpper s) then
    let p := removeOcc s
    if p.any Char.isDigit then
      telPat ++ determine_type p ++ ':' :: p ++ chars "\n"
    else line
  else line

/-- `autoSetContactTypes` from the source: the first pass maps
`remove_types_from_line` over all lines, the second maps `asctSecond`. -/
def autoSetContactTypes (lines : List Str) : List Str :=
  (lines.map remove_types_from_line).map asctSecond

/-! ## `upgradeVcfVersion` -/

/-- Single-character replacement `s.replace(a, rep)` where `rep` never
contains `a` again at a position the scan revisits (true of the four
uses below, applied in sequence). -/
def expand (a : Char) (rep : Str) (s : Str) : Str :=
  (s.map (fun c => if c = a then rep else [c])).flatten

/-- `escape_vcard_value` from the source: double backslashes first,
then escape `;`, `,` and newline (sequential `str.replace` calls). -/
def escape_vcard_value (v : Str) : Str :=
  expand '\n' (chars "\\n")
    (expand ',' (chars "\\,")
      (expand ';' (chars "\\;")
        (expand '\\' (chars "\\\\") v)))

/-- The character class `[\w;,\-]` (ASCII model of `\w`). -/
def wordClassChar (c : Char) : Bool :=
  c.isAlphanum || c = '_' || c = ';' || c = ',' || c = '-'

/-- `re.split(r"[;,]", raw)`, drop empty pieces, lower-case, join with
commas — the TYPE-token collapsing of the upgrade pass. -/
def collapseTypes (raw : Str) : Str :=
  joinSep (chars ",")
    (((splitMany (fun c => c = ';' || c = ',') raw).filter
        (fun t => !t.isEmpty)).map pyLower)

/-- The per-line transform inside `process_contact` of
`upgradeVcfVersion`.  `none` encodes the `VERSION:2.1` branch (which
emits nothing but records that a version line was seen); `some out`
is the line appended to `other_lines`. -/
def upgLineOut (line : Str) : Option Str :=
  if pyUpper (pyStrip line) = chars "VERSION:2.1" then none
  else if pyUpper (pyStrip line) = chars "BEGIN:VCARD" ∨
      pyUpper (pyStrip line) = chars "END:VCARD" then
    some (pyStrip line ++ chars "\n")
  else if (chars "FN:").isPrefixOf (pyUpper (pyStrip line)) then
    some (chars "FN:" ++ escape_vcard_value ((pyStrip line).drop 3) ++ chars "\n")
  else if (chars "N:").isPrefixOf (pyUpper (pyStrip line)) then
    some (chars "N:" ++
      joinSep (chars ";")
        ((splitMany (· = ';') ((pyStrip line).drop 2)).map escape_vcard_value) ++
      chars "\n")
  else if (chars "TEL;TYPE=").isPrefixOf (pyUpper (pyStrip line)) then
    match splitOnce ':' (pyStrip line) with
    | some (left, number) =>
      if ((left.drop 9).takeWhile wordClassChar).isEmpty then some line
      else some (chars "TEL;TYPE=" ++
        collapseTypes ((left.drop 9).takeWhile wordClassChar) ++
        ':' :: pyStrip number ++ chars "\n")
    | none => some line
  else if (chars "EMAIL;TYPE=").isPrefixOf (pyUpper (pyStrip line)) then
    match splitOnce ':' (pyStrip line) with
    | some (left, email) =>
      if ((left.drop 11).takeWhile wordClassChar).isEmpty then some line
      else some (chars "EMAIL;TYPE=" ++
        collapseTypes ((left.drop 11).takeWhile wordClassChar) ++
        ':' :: pyStrip email ++ chars "\n")
    | none => some line
  else
    match splitOnce ':' (pyStrip line) with
    | some (k, v) => some (k ++ ':' :: escape_vcard_value v ++ chars "\n")
    | none => some line

/-- `process_contact` from `upgradeVcfVersion`: transform each line
(recording whether a `VERSION:2.1` line was seen), then re-emit the
transformed lines, inserting `VERSION:3.0` right after each line whose
stripped upper form is the begin marker. -/
def upgProcessContact (cl : List Str) : List Str :=
  let st := cl.foldl
    (fun (st : Bool × List Str) line =>
      match upgLineOut line with
      | none => (true, st.2)
      | some out => (st.1, st.2 ++ [out]))
    (false, [])
  st.2.foldl
    (fun acc l =>
      if pyUpper (pyStrip l) = chars "BEGIN:VCARD" then
        acc ++ [l] ++ (if st.1 then [chars "VERSION:3.0\n"] else [])
      else acc ++ [l])
    []

/-- One iteration of the record-grouping loop of `upgradeVcfVersion`. -/
def upgStep (st : List Str × List Str) (line : Str) : List Str × List Str :=
  if isBeginMark line then (st.1, [line])
  else if isEndMark line then
    (st.1 ++ upgProcessContact (st.2 ++ [line]) ++ [chars "\n"], [])
  else (st.1, st.2 ++ [line])

/-- `upgradeVcfVersion` from the source. -/
def upgradeVcfVersion (lines : List Str) : List Str :=
  (lines.foldl upgStep ([], [])).1

/-! ## `sortContactsByName` -/

/-- One iteration of the scan inside `extract_contact_name`; the state
is `(fn_name, n_name)`.  Each `FN` line overwrites `fn_name`; each `N`
line with a nonempty stripped value overwrites `n_name` (possibly with
the empty string when all its used components are empty). -/
def ecnScanStep (st : Str × Str) (line : Str) : Str × Str :=
  let s := pyStrip line
  let u := pyUpper s
  if (chars "FN:").isPrefixOf u then (pyStrip (s.drop 3), st.2)
  else if (chars "N:").isPrefixOf u then
    let nv := pyStrip (s.drop 2)
    if nv.isEmpty then st else (st.1, nameFromN nv)
  else st

/-- `extract_contact_name` from the source: the last `FN` value
(stripped) when nonempty, else the name derived from the last nonempty
`N` value, else empty; lower-cased for case-insensitive sorting. -/
def extract_contact_name (cl : List Str) : Str :=
  let st := cl.foldl ecnScanStep ([], [])
  if !st.1.isEmpty then pyLower st.1
  else if !st.2.isEmpty then pyLower st.2
  else []

/-- Code-point lexicographic order on strings (Python `<=` on `str`). -/
def lexLe : Str → Str → Bool
  | [], _ => true
  | _ :: _, [] => false
  | a :: as, b :: bs => if a < b then true else if b < a then false else lexLe as bs

/-- The sort relation of `contacts.sort(key=lambda x: x[0])`. -/
def contactRel (a b : Str × List Str) : Prop := lexLe a.1 b.1 = true

instance : DecidableRel contactRel := fun a b => by
  unfold contactRel; infer_instance

/-- The stable sort performed by Python's `list.sort` with the name
key.  A stable sort's output is uniquely determined by the key order
and the input order, so the (stable) insertion sort models `list.sort`
exactly. -/
def sortPairs (cs : List (Str × List Str)) : List (Str × List Str) :=
  List.insertionSort contactRel cs

/-- One iteration of the record-grouping loop of `sortContactsByName`;
the state is `(contacts, current_contact)`. -/
def sortStep (st : List (Str × List Str) × List Str) (line : Str) :
    List (Str × List Str) × List Str :=
  if isBeginMark line then (st.1, [line])
  else if isEndMark line then
    let cl := st.2 ++ [line]
    (st.1 ++ [(extract_contact_name cl, cl)], [])
  else (st.1, st.2 ++ [line])

/-- Re-flattening of the sorted contacts with one blank separator line
after each record. -/
def flattenContacts (cs : List (Str × List Str)) : List Str :=
  cs.foldl (fun acc p => acc ++ p.2 ++ [chars "\n"]) []

/-- `sortContactsByName` from the source. -/
def sortContactsByName (lines : List Str) : List Str :=
  flattenContacts (sortPairs ((lines.foldl sortStep ([], [])).1))

/-! ## `convertToReadable` -/

/-- Python `line.rstrip("\r\n")`. -/
def rstripCRLF (s : Str) : Str :=
  (s.reverse.dropWhile (fun c => c = '\r' || c = '\n')).reverse

/-- `re.sub(r";ENCODING=QUOTED-PRINTABLE", "", key)`: fuel-driven
left-to-right removal of a fixed literal. -/
def removeLit (pat : Str) : Nat → Str → Str
  | 0, s => s
  | _ + 1, [] => []
  | f + 1, c :: t =>
    if pat.isPrefixOf (c :: t) then removeLit pat f ((c :: t).drop pat.length)
    else c :: removeLit pat f t

/-- `re.sub(r";CHARSET=[^;]+", "", key)`: remove `;CHARSET=` followed
by a maximal nonempty run of non-semicolon characters; a position
where the run would be empty is not a match. -/
def removeCharset : Nat → Str → Str
  | 0, s => s
  | _ + 1, [] => []
  | f + 1, c :: t =>
    if (chars ";CHARSET=").isPrefixOf (c :: t) then
      let rest := (c :: t).drop 9
      let run := rest.takeWhile (fun d => !(d = ';'))
      if run.isEmpty then c :: removeCharset f t
      else removeCharset f (rest.drop run.length)
    else c :: removeCharset f t

/-- The key cleanup inside the `try` block of `convertToReadable`
(the two `re.sub` calls; they are total, so they sit outside the
fallible decode in this model). -/
def cleanKey (k : Str) : Str :=
  removeLit (chars ";ENCODING=QUOTED-PRINTABLE") k.length (removeCharset k.length k)

/-- The worker of `convertToReadable`.  `decode` models the external
`quopri.decodestring(...).decode("utf-8")` call (`none` = the call
raised).  State: the continuation `buffer` and the `processing_buffer`
flag.  Returns the output lines and the list of warning diagnostics
(the source's `print("Warning: couldn't decode line: ...")`). -/
def ctrGo (decode : Str → Option Str) : Str → Bool → List Str → List Str × List Str
  | _, _, [] => ([], [])
  | buf, pb, line :: rest =>
    let ls0 := rstripCRLF line
    if lastIs '=' ls0 then ctrGo decode (buf ++ ls0.dropLast) true rest
    else
      let ls := if pb then buf ++ ls0 else ls0
      let buf2 := if pb then [] else buf
      let next := ctrGo decode buf2 false rest
      if hasSub (chars "ENCODING=QUOTED-PRINTABLE") ls then
        match splitOnce ':' ls with
        | some (key, encoded) =>
          match decode encoded with
          | some d => ((cleanKey key ++ ':' :: d ++ chars "\n") :: next.1, next.2)
          | none => (line :: next.1, ls :: next.2)
        | none => (line :: next.1, next.2)
      else (line :: next.1, next.2)

/-- `convertToReadable` from the source, parametrized by the external
quoted-printable + UTF-8 decoder. -/
def convertToReadable (decode : Str → Option Str) (lines : List Str) :
    List Str × List Str :=
  ctrGo decode [] false lines

/-! ## String lemmas -/

theorem lstrip_cons_of_not_ws {c : Char} (t : Str) (h : pyIsWS c = false) :
    lstrip (c :: t) = c :: t := by
  simp [lstrip, List.dropWhile_cons, h]

theorem rstrip_append_of_ws {c : Char} (s : Str) (h : pyIsWS c = true) :
    rstrip (s ++ [c]) = rstrip s := by
  simp [rstrip, List.dropWhile_cons, h]

theorem rstrip_eq_self_of_reverse_head {c : Char} {s t : Str}
    (hs : s.reverse = c :: t) (h : pyIsWS c = false) : rstrip s = s := by
  have h2 : rstrip s = (List.dropWhile pyIsWS (c :: t)).reverse := by rw [rstrip, hs]
  rw [h2, List.dropWhile_cons, h]
  simp only [Bool.false_eq_true, if_false, ← hs, List.reverse_reverse]

/-- A string fixed by `rstrip` has a non-whitespace final character. -/
theorem reverse_head_not_ws_of_rstrip {v : Str} {c : Char} {t : Str}
    (hv : rstrip v = v) (hct : v.reverse = c :: t) : pyIsWS c = false := by
  by_contra hby
  rw [Bool.not_eq_false] at hby
  have h1 : rstrip v = (List.dropWhile pyIsWS t).reverse := by
    rw [rstrip, hct, List.dropWhile_cons_of_pos hby]
  have h2 : v.length ≤ t.length := by
    calc v.length = (rstrip v).length := by rw [hv]
      _ = (List.dropWhile pyIsWS t).length := by rw [h1, List.length_reverse]
      _ ≤ t.length := (List.dropWhile_sublist _).length_le
  have h3 : v.length = t.length + 1 := by
    have := congrArg List.length hct
    simpa using this
  omega

theorem rstrip_eq_self_append {a v : Str} (hne : v ≠ []) (hv : rstrip v = v) :
    rstrip (a ++ v) = a ++ v := by
  obtain ⟨c, t, hct⟩ : ∃ c t, v.reverse = c :: t := by
    cases h : v.reverse with
    | nil => exact absurd (by simpa using congrArg List.reverse h) hne
    | cons c t => exact ⟨c, t, rfl⟩
  refine rstrip_eq_self_of_reverse_head (c := c) (t := t ++ a.reverse) ?_
    (reverse_head_not_ws_of_rstrip hv hct)
  rw [List.reverse_append, hct]
  rfl

theorem dropWhile_idem (p : Char → Bool) (l : Str) :
    List.dropWhile p (List.dropWhile p l) = List.dropWhile p l := by
  cases h : List.dropWhile p l with
  | nil => rfl
  | cons c t =>
    have hp := List.head?_dropWhile_not p l
    rw [h] at hp
    simp only [List.head?] at hp
    rw [List.dropWhile_cons_of_neg]
    simp [hp]

theorem rstrip_idem (s : Str) : rstrip (rstrip s) = rstrip s := by
  rw [rstrip, rstrip, List.reverse_reverse, dropWhile_idem]

/-- Freedom from trailing whitespace passes to suffixes. -/
theorem rstrip_suffix {a v s : Str} (hs : rstrip s = s) (hav : s = a ++ v) :
    rstrip v = v := by
  cases hv : v.reverse with
  | nil =>
    have : v = [] := by simpa using congrArg List.reverse hv
    subst this
    rfl
  | cons c t =>
    have hsr : s.reverse = c :: (t ++ a.reverse) := by
      rw [hav, List.reverse_append, hv]; rfl
    exact rstrip_eq_self_of_reverse_head hv (reverse_head_not_ws_of_rstrip hs hsr)

theorem pyUpper_append (a b : Str) : pyUpper (a ++ b) = pyUpper a ++ pyUpper b :=
  List.map_append _ a b

theorem isPrefixOf_append_self (p x : Str) : p.isPrefixOf (p ++ x) = true := by
  induction p with
  | nil => simp [List.isPrefixOf]
  | cons c t ih => simp [List.isPrefixOf, ih]

/-- Two candidate key literals with different head characters cannot
both be a prefix of the same string. -/
theorem not_both_isPrefixOf {a b : Char} {as bs u : Str} (hab : a ≠ b)
    (ha : (a :: as).isPrefixOf u = true) (hb : (b :: bs).isPrefixOf u = true) :
    False := by
  cases u with
  | nil => simp [List.isPrefixOf] at ha
  | cons c t =>
    simp [List.isPrefixOf] at ha hb
    exact hab (ha.1.trans hb.1.symm)

theorem splitOnce_eq_some {sep : Char} :
    ∀ {s a v : Str}, splitOnce sep s = some (a, v) →
      s = a ++ sep :: v ∧ a.any (· = sep) = false := by
  intro s
  induction s with
  | nil => intro a v h; simp [splitOnce] at h
  | cons c t ih =>
    intro a v h
    by_cases hc : c = sep
    · subst hc
      rw [splitOnce, if_pos rfl] at h
      simp only [Option.some.injEq, Prod.mk.injEq] at h
      obtain ⟨rfl, rfl⟩ := h
      simp
    · rw [splitOnce, if_neg hc] at h
      cases hsp : splitOnce sep t with
      | none => rw [hsp] at h; simp at h
      | some p =>
        rw [hsp] at h
        simp only [Option.map_some', Option.some.injEq, Prod.mk.injEq] at h
        obtain ⟨h1, h2⟩ := ih (a := p.1) (v := p.2) (by rw [hsp])
        obtain ⟨ha, hv⟩ := h
        constructor
        · rw [← ha, h1, ← hv]
          rfl
        · rw [← ha]
          simp [hc, h2]

theorem splitOnce_eq_none {sep : Char} :
    ∀ {s : Str}, s.any (· = sep) = false → splitOnce sep s = none := by
  intro s
  induction s with
  | nil => intro _; rfl
  | cons c t ih =>
    intro h
    simp at h
    simp [splitOnce, h.1, ih (by simpa using h.2)]

theorem splitOnce_append {sep : Char} :
    ∀ {a : Str} (v : Str), a.any (· = sep) = false →
      splitOnce sep (a ++ sep :: v) = some (a, v) := by
  intro a
  induction a with
  | nil => intro v _; simp [splitOnce]
  | cons c t ih =>
    intro v h
    simp at h
    simp [splitOnce, h.1, ih v (by simpa using h.2)]

theorem determine_type_colonFree (p : Str) :
    (determine_type p).any (· = ':') = false := by
  unfold determine_type
  split
  · decide
  · split
    · decide
    · split <;> decide

theorem determine_type_nonempty (p : Str) : determine_type p ≠ [] := by
  unfold determine_type
  split
  · decide
  · split
    · decide
    · split <;> decide

theorem lstrip_telPat_headed (x : Str) : lstrip (telPat ++ x) = telPat ++ x :=
  lstrip_cons_of_not_ws _ (by decide)

theorem pyUpper_telPat_append (x : Str) :
    pyUpper (telPat ++ x) = telPat ++ pyUpper x := by
  rw [pyUpper_append]
  rfl

theorem telPat_isPrefixOf_upper (x : Str) :
    telPat.isPrefixOf (pyUpper (telPat ++ x)) = true := by
  rw [pyUpper_telPat_append]
  exact isPrefixOf_append_self telPat (pyUpper x)

/-- Computation of `pyStrip` on the telephone lines rebuilt by the
type-inference pass (head `T` is not whitespace; the trailing newline
is stripped; `v` itself carries no trailing whitespace). -/
theorem pyStrip_telPat_line {v : Str} (hv : rstrip v = v) :
    pyStrip (telPat ++ v ++ chars "\n") = telPat ++ v := by
  have h1 : lstrip (telPat ++ v ++ chars "\n") = telPat ++ v ++ chars "\n" :=
    lstrip_cons_of_not_ws _ (by decide)
  rw [pyStrip, h1]
  have h2 : telPat ++ v ++ chars "\n" = (telPat ++ v) ++ ['\n'] := by
    simp [chars]
  rw [h2, rstrip_append_of_ws _ (by decide)]
  cases hne : v with
  | nil => decide
  | cons c t => exact hne ▸ rstrip_eq_self_append (by simp [hne]) (hne ▸ hv)

/-! ## Claim C1 -/

/-- **C1.** The claim states that a line already in canonical
`TEL;TYPE=<type>:<value>` shape is emitted by `formatContactNumbers`
in the same canonical shape with the same type, only the value being
prefix-stripped and regrouped.  The code violates this: on
`TEL;TYPE=cell:912345678` the lazy 9–15-character window of the
regrouping regex starts right after `TEL;TYPE=` and spans
`cell:912345678` (exactly 9 digits), so the replacement deletes the
type word and the colon, producing `TEL;TYPE=912 345 678` — no longer
canonical, type lost.  This contradicts the code's own comment
("Apply replacement only to likely number sections") and the spec's
§4.5(b), which scopes the scan to the value. -/
theorem C1_code_divergence :
    formatContactNumbers [chars "TEL;TYPE=cell:912345678\n"] =
        [chars "TEL;TYPE=912 345 678\n"] ∧
      chars "TEL;TYPE=912 345 678\n" ≠ chars "TEL;TYPE=cell:912 345 678\n" := by
  constructor
  · decide
  · decide

/-! ## Claim C2 -/

/-- The field key of a line in the sense of the spec's data model
(§3): the field name, i.e. the text before the first `:` or `;` of the
stripped line.  This definition follows the spec's words; it is used
only to state what the claim asserts about output keys. -/
def specFieldKey (l : Str) : Str :=
  (pyStrip l).takeWhile (fun c => !(c = ':' || c = ';'))

/-- **C2, counterexample.** `is_mandatory_field` matches by *prefix*,
so a `NOTE:` line (key `NOTE`, outside the allowed key set) survives
Optional-Field Pruning: it is a non-blank output line that is neither
a marker nor a field line with key in
{`VERSION`, `FN`, `N`, `TEL`}. -/
theorem C2_counterexample :
    (chars "NOTE:hi\n") ∈ removeOptionalFields
        [chars "BEGIN:VCARD\n", chars "NOTE:hi\n", chars "END:VCARD\n"] ∧
      specFieldKey (chars "NOTE:hi\n") ∉
        [chars "VERSION", chars "FN", chars "N", chars "TEL"] ∧
      isBeginMark (chars "NOTE:hi\n") = false ∧
      isEndMark (chars "NOTE:hi\n") = false ∧
      chars "NOTE:hi\n" ≠ chars "\n" := by
  refine ⟨by decide, by decide, by decide, by decide, by decide⟩

/-! ## Claim C3 -/

/-- **C3, counterexample.** The claim says a digit-bearing
`TEL;TYPE=<x>` line (no colon) is rewritten as
`TEL;TYPE=<category>:<x>`.  But the code computes the emitted value
with `line.strip().replace("TEL;TYPE=", "")`, which removes *every*
occurrence of `TEL;TYPE=`, not just the leading one: for
`x = 1TEL;TYPE=2` the emitted value is `12`, not `x`. -/
theorem C3_counterexample :
    autoSetContactTypes [chars "TEL;TYPE=1TEL;TYPE=2\n"] =
        [chars "TEL;TYPE=VOICE:12\n"] ∧
      chars "TEL;TYPE=VOICE:12\n" ≠ chars "TEL;TYPE=VOICE:1TEL;TYPE=2\n" := by
  constructor
  · decide
  · decide

theorem removeOcc_telPat_append (v : Str) :
    removeOcc (telPat ++ v) = removeOcc v := rfl

/-- **C3 (amended).** For a line whose stripped form is
`TEL;TYPE=<x>` with `<x>` containing a digit, no colon, and no
further occurrence of the substring `TEL;TYPE=` (so that the
`replace` call leaves it unchanged), the Type-Inference Pass rewrites
it to `TEL;TYPE=<category>:<x>` where `<category>` is
`determine_type x`: HOME when the cleaned digits start with `2`, CELL
when they start with `9` or `+`, VOICE otherwise. -/
theorem C3_amended (line x : Str)
    (hx : pyStrip line = telPat ++ x)
    (hd : x.any Char.isDigit = true)
    (hc : x.any (· = ':') = false)
    (hr : removeOcc x = x) :
    asctSecond (remove_types_from_line line) =
      telPat ++ determine_type x ++ ':' :: x ++ chars "\n" := by
  have hsplit : splitOnce ':' (telPat ++ x) = none := by
    apply splitOnce_eq_none
    rw [List.any_append]
    simp only [hc, Bool.or_false]
    decide
  have h1 : remove_types_from_line line = line := by
    unfold remove_types_from_line
    rw [hx]
    simp only [telPat_isPrefixOf_upper, if_true, hsplit]
  rw [h1]
  unfold asctSecond
  rw [hx]
  simp only [telPat_isPrefixOf_upper, if_true, removeOcc_telPat_append, hr, hd]

/-- Witness for `C3_amended` at the concrete line of the spec's own
example, `TEL;TYPE=912345678`. -/
theorem C3_witness :
    asctSecond (remove_types_from_line (chars "TEL;TYPE=912345678\n")) =
      telPat ++ determine_type (chars "912345678") ++ ':' ::
        chars "912345678" ++ chars "\n" :=
  C3_amended (chars "TEL;TYPE=912345678\n") (chars "912345678")
    (by decide) (by decide) (by decide) (by decide)

/-! ## Claim C4 -/

/-- **C4, counterexample.** The Type-Inference Pass is not idempotent:
on `TEL;TYPE=a:b:c` the first application yields `TEL;TYPE=b:c`
(phase 1 strips up to the first colon; phase 2 finds no digit and
leaves it), and the second application strips again to
`TEL;TYPE=c`. -/
theorem C4_counterexample :
    autoSetContactTypes (autoSetContactTypes [chars "TEL;TYPE=a:b:c\n"]) ≠
      autoSetContactTypes [chars "TEL;TYPE=a:b:c\n"] := by
  decide

/-- A string containing a character satisfying `p` is nonempty. -/
theorem ne_nil_of_any {p : Char → Bool} {v : Str} (h : v.any p = true) :
    v ≠ [] := by
  cases v with
  | nil => simp at h
  | cons c t => simp

theorem splitOnce_none_any {sep : Char} :
    ∀ {s : Str}, splitOnce sep s = none → s.any (· = sep) = false := by
  intro s
  induction s with
  | nil => intro _; rfl
  | cons c t ih =>
    intro h
    by_cases hc : c = sep
    · rw [splitOnce, if_pos hc] at h
      simp at h
    · rw [splitOnce, if_neg hc] at h
      rw [Option.map_eq_none'] at h
      simp [hc, ih h]

theorem rstrip_pyStrip (L : Str) : rstrip (pyStrip L) = pyStrip L :=
  rstrip_idem _

/-- The composite per-line transform of `autoSetContactTypes`
(phase 1 then phase 2). -/
def asctLine (L : Str) : Str := asctSecond (remove_types_from_line L)

theorem autoSetContactTypes_eq_map (lines : List Str) :
    autoSetContactTypes lines = lines.map asctLine := by
  simp [autoSetContactTypes, asctLine, List.map_map]

theorem rtfl_not_tel {L : Str}
    (hP : telPat.isPrefixOf (pyUpper (pyStrip L)) = false) :
    remove_types_from_line L = L := by
  unfold remove_types_from_line
  simp only [hP, Bool.false_eq_true, if_false]

theorem asctSecond_not_tel {L : Str}
    (hP : telPat.isPrefixOf (pyUpper (pyStrip L)) = false) :
    asctSecond L = L := by
  unfold asctSecond
  simp only [hP, Bool.false_eq_true, if_false]

theorem rtfl_tel_colon {L a v : Str}
    (hP : telPat.isPrefixOf (pyUpper (pyStrip L)) = true)
    (hsp : splitOnce ':' (pyStrip L) = some (a, v)) :
    remove_types_from_line L = telPat ++ v ++ chars "\n" := by
  unfold remove_types_from_line
  simp only [hP, if_true, hsp]

theorem rtfl_tel_nocolon {L : Str}
    (hP : telPat.isPrefixOf (pyUpper (pyStrip L)) = true)
    (hsp : splitOnce ':' (pyStrip L) = none) :
    remove_types_from_line L = L := by
  unfold remove_types_from_line
  simp only [hP, if_true, hsp]

/-- Evaluation of the phase-2 transform on a freshly rebuilt
`TEL;TYPE=<v>` line whose value has no trailing whitespace and is
unchanged by the `replace` call. -/
theorem asctSecond_telPat_line {v : Str} (hv : rstrip v = v) (hr : removeOcc v = v) :
    asctSecond (telPat ++ v ++ chars "\n") =
      if v.any Char.isDigit = true then
        telPat ++ determine_type v ++ ':' :: v ++ chars "\n"
      else telPat ++ v ++ chars "\n" := by
  unfold asctSecond
  rw [pyStrip_telPat_line hv]
  simp only [telPat_isPrefixOf_upper, if_true, removeOcc_telPat_append, hr]

/-- Appending the classified type keeps the value part intact: the
rebuilt line `TEL;TYPE=<cat>:<v>` is a fixed point of `asctLine` when
`<v>` has a digit, no trailing whitespace, and no `TEL;TYPE=`
occurrence. -/
theorem asctLine_fix_typed {v : Str} (hv : rstrip v = v) (hr : removeOcc v = v)
    (hd : v.any Char.isDigit = true) :
    asctLine (telPat ++ determine_type v ++ ':' :: v ++ chars "\n") =
      telPat ++ determine_type v ++ ':' :: v ++ chars "\n" := by
  have hvne : v ≠ [] := ne_nil_of_any hd
  have hmid : rstrip (determine_type v ++ ':' :: v) = determine_type v ++ ':' :: v := by
    have : determine_type v ++ ':' :: v = (determine_type v ++ [':']) ++ v := by simp
    rw [this]
    exact rstrip_eq_self_append hvne hv
  have hstrip : pyStrip (telPat ++ determine_type v ++ ':' :: v ++ chars "\n") =
      telPat ++ determine_type v ++ ':' :: v := by
    have h1 := pyStrip_telPat_line (v := determine_type v ++ ':' :: v) hmid
    simpa using h1
  have hcf : ((telPat ++ determine_type v).any (· = ':')) = false := by
    rw [List.any_append, determine_type_colonFree]
    simp only [Bool.or_false]
    decide
  have hsp : splitOnce ':' (telPat ++ determine_type v ++ ':' :: v) =
      some (telPat ++ determine_type v, v) := by
    have h2 : telPat ++ determine_type v ++ ':' :: v =
        (telPat ++ determine_type v) ++ ':' :: v := by simp
    rw [h2]
    exact splitOnce_append v hcf
  have hP : telPat.isPrefixOf
      (pyUpper (pyStrip (telPat ++ determine_type v ++ ':' :: v ++ chars "\n"))) = true := by
    rw [hstrip]
    have h3 : telPat ++ determine_type v ++ ':' :: v =
        telPat ++ (determine_type v ++ ':' :: v) := by simp
    rw [h3]
    exact telPat_isPrefixOf_upper _
  unfold asctLine
  rw [rtfl_tel_colon hP (by rw [hstrip]; exact hsp)]
  rw [asctSecond_telPat_line hv hr, if_pos hd]

/-- A rebuilt `TEL;TYPE=<v>` line with digit-free, colon-free value is
a fixed point of `asctLine`. -/
theorem asctLine_fix_plain {v : Str} (hv : rstrip v = v) (hr : removeOcc v = v)
    (hd : v.any Char.isDigit = false) (hc : v.any (· = ':') = false) :
    asctLine (telPat ++ v ++ chars "\n") = telPat ++ v ++ chars "\n" := by
  have hstrip := pyStrip_telPat_line hv
  have hP : telPat.isPrefixOf (pyUpper (pyStrip (telPat ++ v ++ chars "\n"))) = true := by
    rw [hstrip]; exact telPat_isPrefixOf_upper v
  have hsp : splitOnce ':' (pyStrip (telPat ++ v ++ chars "\n")) = none := by
    rw [hstrip]
    apply splitOnce_eq_none
    rw [List.any_append, hc]
    simp only [Bool.or_false]
    decide
  unfold asctLine
  rw [rtfl_tel_nocolon hP hsp]
  rw [asctSecond_telPat_line hv hr, if_neg (by rw [hd]; exact Bool.false_ne_true)]

/-- The sufficient condition under which one line behaves
idempotently under the Type-Inference Pass: either the line is not a
`TEL;TYPE=`-classified line, or its value part (after the first colon
when one exists, otherwise the stripped line with all `TEL;TYPE=`
occurrences removed) is unchanged by the occurrence removal and — when
it carries no digit — contains no colon (colon case), respectively
carries no digit or additionally no trailing whitespace (colon-free
case). -/
def asctGood (L : Str) : Bool :=
  if telPat.isPrefixOf (pyUpper (pyStrip L)) then
    match splitOnce ':' (pyStrip L) with
    | some (_, v) =>
      removeOcc v == v && (v.any Char.isDigit || !(v.any (· = ':')))
    | none =>
      !((removeOcc (pyStrip L)).any Char.isDigit) ||
        (removeOcc (removeOcc (pyStrip L)) == removeOcc (pyStrip L) &&
         rstrip (removeOcc (pyStrip L)) == removeOcc (pyStrip L))
  else true

/-- Pointwise idempotence of the per-line transform on good lines. -/
theorem asctLine_idem {L : Str} (h : asctGood L = true) :
    asctLine (asctLine L) = asctLine L := by
  by_cases hP : telPat.isPrefixOf (pyUpper (pyStrip L)) = true
  · cases hsp : splitOnce ':' (pyStrip L) with
    | some av =>
      obtain ⟨a, v⟩ := av
      rw [asctGood, if_pos hP, hsp] at h
      simp only [Bool.and_eq_true, Bool.or_eq_true, beq_iff_eq, Bool.not_eq_true'] at h
      obtain ⟨hr, hdc⟩ := h
      have hv : rstrip v = v := by
        obtain ⟨hdecomp, _⟩ := splitOnce_eq_some hsp
        exact rstrip_suffix (a := a ++ [':']) (rstrip_pyStrip L)
          (by rw [hdecomp]; simp)
      have hphase1 : remove_types_from_line L = telPat ++ v ++ chars "\n" :=
        rtfl_tel_colon hP hsp
      by_cases hd : v.any Char.isDigit = true
      · have hfirst : asctLine L = telPat ++ determine_type v ++ ':' :: v ++ chars "\n" := by
          unfold asctLine
          rw [hphase1, asctSecond_telPat_line hv hr, if_pos hd]
        rw [hfirst]
        exact asctLine_fix_typed hv hr hd
      · have hd2 : v.any Char.isDigit = false := eq_false_of_ne_true hd
        have hc : v.any (· = ':') = false := by
          rcases hdc with h1 | h1
          · exact absurd h1 hd
          · exact h1
        have hfirst : asctLine L = telPat ++ v ++ chars "\n" := by
          unfold asctLine
          rw [hphase1, asctSecond_telPat_line hv hr, if_neg hd]
        rw [hfirst]
        exact asctLine_fix_plain hv hr hd2 hc
    | none =>
      rw [asctGood, if_pos hP, hsp] at h
      simp only [Bool.or_eq_true, Bool.not_eq_true', Bool.and_eq_true, beq_iff_eq] at h
      have hphase1 : remove_types_from_line L = L := rtfl_tel_nocolon hP hsp
      cases h with
      | inl hd =>
        have hself : asctLine L = L := by
          unfold asctLine
          rw [hphase1]
          unfold asctSecond
          simp only [hP, if_true, hd]
          simp
        rw [hself, hself]
      | inr hgood =>
        obtain ⟨hr, hv⟩ := hgood
        by_cases hd : (removeOcc (pyStrip L)).any Char.isDigit = true
        · have hfirst : asctLine L =
              telPat ++ determine_type (removeOcc (pyStrip L)) ++ ':' ::
                removeOcc (pyStrip L) ++ chars "\n" := by
            unfold asctLine
            rw [hphase1]
            unfold asctSecond
            simp only [hP, if_true, hd]
          rw [hfirst]
          exact asctLine_fix_typed hv hr hd
        · have hself : asctLine L = L := by
            unfold asctLine
            rw [hphase1]
            unfold asctSecond
            simp only [hP, if_true]
            rw [eq_false_of_ne_true hd]
            simp
          rw [hself, hself]
  · have hP2 : telPat.isPrefixOf (pyUpper (pyStrip L)) = false :=
      eq_false_of_ne_true hP
    have hself : asctLine L = L := by
      unfold asctLine
      rw [rtfl_not_tel hP2, asctSecond_not_tel hP2]
    rw [hself, hself]

/-- **C4 (amended).** The Type-Inference Pass is idempotent on every
input sequence whose lines all satisfy `asctGood`: each line that
strip-starts (case-insensitively) with `TEL;TYPE=` must have a value
part that is unchanged by removing `TEL;TYPE=` occurrences and that,
when digit-free, contains no colon (and, in the colon-free shape, no
trailing whitespace).  Without this restriction the pass is not
idempotent (`C4_counterexample`). -/
theorem map_map_eq_of_pointwise {g : Str → Str} :
    ∀ l : List Str, (∀ L ∈ l, g (g L) = g L) → (l.map g).map g = l.map g
  | [], _ => rfl
  | x :: t, h => by
    simp only [List.map_cons]
    rw [h x (by simp), map_map_eq_of_pointwise t (fun L hL => h L (by simp [hL]))]

theorem C4_amended (lines : List Str) (h : ∀ L ∈ lines, asctGood L = true) :
    autoSetContactTypes (autoSetContactTypes lines) = autoSetContactTypes lines := by
  rw [autoSetContactTypes_eq_map (autoSetContactTypes lines),
    autoSetContactTypes_eq_map lines]
  exact map_map_eq_of_pointwise lines (fun L hL => asctLine_idem (h L hL))

/-- Witness for `C4_amended` on a two-line input. -/
theorem C4_witness :
    autoSetContactTypes (autoSetContactTypes
        [chars "TEL;TYPE=CELL:912 345 678\n", chars "FN:Bob\n"]) =
      autoSetContactTypes [chars "TEL;TYPE=CELL:912 345 678\n", chars "FN:Bob\n"] :=
  C4_amended _ (by decide)


/-! ## Claim C2, amended -/

/-- Invariant preservation along a left fold. -/
theorem foldl_preserve {A B : Type} (step : A → B → A) (P : A → Prop)
    (h : ∀ s b, P s → P (step s b)) :
    ∀ (l : List B) (s : A), P s → P (l.foldl step s)
  | [], _, hs => hs
  | b :: t, s, hs => foldl_preserve step P h t (step s b) (h s b hs)

theorem isBeginMark_eq {l : Str} (h : isBeginMark l = true) :
    pyUpper (pyStrip l) = chars "BEGIN:VCARD" := by
  simpa [isBeginMark] using h

theorem isEndMark_eq {l : Str} (h : isEndMark l = true) :
    pyUpper (pyStrip l) = chars "END:VCARD" := by
  simpa [isEndMark] using h

/-- Marker lines pass the mandatory-field test. -/
theorem is_mandatory_of_marker {l : Str}
    (h : pyUpper (pyStrip l) = chars "BEGIN:VCARD" ∨
         pyUpper (pyStrip l) = chars "END:VCARD") :
    is_mandatory_field l = true := by
  unfold is_mandatory_field
  rcases h with h | h <;> rw [h] <;> decide

/-- **C2 (amended).** After Optional-Field Pruning every output line
is either the blank separator or passes `is_mandatory_field`, i.e. its
stripped upper-cased form starts with one of `BEGIN:VCARD`,
`END:VCARD`, `VERSION`, `FN`, `N`, `TEL` — a *prefix* match, so keys
such as `NOTE`, `NICKNAME` or `TELEX` that merely share one of those
prefixes are retained as well (`C2_counterexample`). -/
theorem C2_amended (lines : List Str) :
    ∀ l ∈ removeOptionalFields lines,
      l = chars "\n" ∨ is_mandatory_field l = true := by
  have hinv := foldl_preserve rofStep
    (fun st => (∀ x ∈ st.1, x = chars "\n" ∨ is_mandatory_field x = true) ∧
      (∀ x ∈ st.2, is_mandatory_field x = true))
    ?_ lines (([], []) : List Str × List Str) ?_
  · intro l hl
    exact hinv.1 l hl
  · intro s b hs
    unfold rofStep
    by_cases hb : isBeginMark b = true
    · simp only [hb, if_true]
      refine ⟨hs.1, ?_⟩
      intro x hx
      simp only [List.mem_singleton] at hx
      subst hx
      exact is_mandatory_of_marker (Or.inl (isBeginMark_eq hb))
    · simp only [hb, Bool.false_eq_true, if_false]
      by_cases he : isEndMark b = true
      · simp only [he, if_true]
        refine ⟨?_, by intro x hx; simp at hx⟩
        intro x hx
        simp only [List.mem_append, List.mem_singleton] at hx
        rcases hx with (hx | hx) | hx
        · exact hs.1 x hx
        · rcases hx with hx | hx
          · exact Or.inr (hs.2 x hx)
          · subst hx
            exact Or.inr (is_mandatory_of_marker (Or.inr (isEndMark_eq he)))
        · exact Or.inl hx
      · simp only [he, Bool.false_eq_true, if_false]
        by_cases hm : is_mandatory_field b = true
        · simp only [hm, if_true]
          refine ⟨hs.1, ?_⟩
          intro x hx
          simp only [List.mem_append, List.mem_singleton] at hx
          rcases hx with hx | hx
          · exact hs.2 x hx
          · subst hx; exact hm
        · simp only [hm, Bool.false_eq_true, if_false]
          exact hs
  · exact ⟨by intro x hx; simp at hx, by intro x hx; simp at hx⟩

/-- Witness for `C2_amended`: the retained `FN` line of a concrete
record is mandatory. -/
theorem C2_witness :
    chars "FN:Ana\n" = chars "\n" ∨
      is_mandatory_field (chars "FN:Ana\n") = true :=
  C2_amended [chars "BEGIN:VCARD\n", chars "FN:Ana\n", chars "END:VCARD\n"]
    (chars "FN:Ana\n") (by decide)


/-! ## Claim C10 -/

/-- **C10.** `formatContactNumbers` emits exactly one output line per
input line, and a line whose stripped upper-cased form does not start
with `TEL` is passed through unchanged at its original position; only
telephone lines can differ. -/
theorem C10_frame (lines : List Str) :
    (formatContactNumbers lines).length = lines.length ∧
    ∀ (i : Nat) (l : Str), lines[i]? = some l → telLineTest l = false →
      (formatContactNumbers lines)[i]? = some l := by
  constructor
  · simp [formatContactNumbers]
  · intro i l h ht
    simp only [formatContactNumbers, List.getElem?_map, h, Option.map_some']
    rw [if_neg (by rw [ht]; exact Bool.false_ne_true)]

/-- Witness for `C10_frame` on a one-line non-telephone input. -/
theorem C10_witness :
    (formatContactNumbers [chars "FN:Ana\n"]).length =
        ([chars "FN:Ana\n"] : List Str).length ∧
      (formatContactNumbers [chars "FN:Ana\n"])[0]? = some (chars "FN:Ana\n") :=
  ⟨(C10_frame [chars "FN:Ana\n"]).1,
   (C10_frame [chars "FN:Ana\n"]).2 0 (chars "FN:Ana\n") (by rfl) (by decide)⟩


/-! ## Claim C5 -/

theorem lexLe_refl : ∀ a : Str, lexLe a a = true
  | [] => rfl
  | c :: t => by simp [lexLe, lt_irrefl, lexLe_refl t]

theorem lexLe_total : ∀ a b : Str, lexLe a b = true ∨ lexLe b a = true
  | [], _ => Or.inl rfl
  | _ :: _, [] => Or.inr rfl
  | a :: as, b :: bs => by
    rcases lt_trichotomy a b with h | h | h
    · left; simp [lexLe, h]
    · subst h
      rcases lexLe_total as bs with h2 | h2
      · left; simp [lexLe, lt_irrefl, h2]
      · right; simp [lexLe, lt_irrefl, h2]
    · right; simp [lexLe, h]

theorem lexLe_trans :
    ∀ a b c : Str, lexLe a b = true → lexLe b c = true → lexLe a c = true
  | [], _, _, _, _ => rfl
  | _ :: _, [], _, h, _ => by simp [lexLe] at h
  | _ :: _, _ :: _, [], _, h2 => by simp [lexLe] at h2
  | a :: as, b :: bs, c :: cs, h1, h2 => by
    rcases lt_trichotomy a b with hab | hab | hab
    · rcases lt_trichotomy b c with hbc | hbc | hbc
      · simp [lexLe, lt_trans hab hbc]
      · subst hbc; simp [lexLe, hab]
      · exfalso; simp [lexLe, asymm hbc, hbc] at h2
    · subst hab
      rcases lt_trichotomy a c with hac | hac | hac
      · simp [lexLe, hac]
      · subst hac
        have h1x : lexLe as bs = true := by simpa [lexLe, lt_irrefl] using h1
        have h2x : lexLe bs cs = true := by simpa [lexLe, lt_irrefl] using h2
        simp [lexLe, lt_irrefl, lexLe_trans as bs cs h1x h2x]
      · exfalso; simp [lexLe, asymm hac, hac] at h2
    · exfalso; simp [lexLe, asymm hab, hab] at h1

theorem lexLe_nil_right : ∀ {a : Str}, lexLe a [] = true → a = []
  | [], _ => rfl
  | _ :: _, h => by simp [lexLe] at h

instance : IsTotal (Str × List Str) contactRel :=
  ⟨fun a b => lexLe_total a.1 b.1⟩

instance : IsTrans (Str × List Str) contactRel :=
  ⟨fun a b c => lexLe_trans a.1 b.1 c.1⟩

/-- Stability of the insertion step: inserting `x` does not disturb
the relative order of entries with any given key (entries skipped over
have strictly smaller keys, hence a key different from `x`'s). -/
theorem filter_orderedInsert (k : Str) (x : Str × List Str) :
    ∀ l : List (Str × List Str),
      (List.orderedInsert contactRel x l).filter (fun p => p.1 == k) =
        ((x :: l).filter (fun p => p.1 == k))
  | [] => rfl
  | b :: l => by
    by_cases hr : contactRel x b
    · rw [List.orderedInsert, if_pos hr]
    · rw [List.orderedInsert, if_neg hr]
      by_cases hxk : x.1 = k <;> by_cases hbk : b.1 = k
      · exfalso
        apply hr
        show lexLe x.1 b.1 = true
        rw [hxk, hbk]
        exact lexLe_refl k
      · simp [List.filter_cons, beq_iff_eq, hxk, hbk, filter_orderedInsert k x l]
      · simp [List.filter_cons, beq_iff_eq, hxk, hbk, filter_orderedInsert k x l]
      · simp [List.filter_cons, beq_iff_eq, hxk, hbk, filter_orderedInsert k x l]

/-- Stability of the whole sort: for every key, the entries carrying
that key appear in the output in their input order. -/
theorem filter_sortPairs (k : Str) :
    ∀ cs : List (Str × List Str),
      (sortPairs cs).filter (fun p => p.1 == k) =
        cs.filter (fun p => p.1 == k)
  | [] => rfl
  | x :: cs => by
    have ih := filter_sortPairs k cs
    unfold sortPairs at ih ⊢
    simp only [List.insertionSort]
    rw [filter_orderedInsert k x (List.insertionSort contactRel cs)]
    rw [List.filter_cons, List.filter_cons, ih]

theorem sortPairs_sorted (cs : List (Str × List Str)) :
    (sortPairs cs).Pairwise contactRel :=
  List.sorted_insertionSort contactRel cs

theorem sortPairs_empty_first (cs : List (Str × List Str)) :
    (sortPairs cs).Pairwise (fun a b => b.1 = [] → a.1 = []) := by
  apply List.Pairwise.imp ?_ (sortPairs_sorted cs)
  intro a b hab hb
  have hab2 : lexLe a.1 b.1 = true := hab
  rw [hb] at hab2
  exact lexLe_nil_right hab2

/-- **C5 (amended).** `sortContactsByName` flattens the stable sort of
the per-record `(key, record)` pairs, where the key is computed by
`extract_contact_name` (the *last* `FN` value, stripped, when
nonempty; otherwise the name derived from the last `N` field with
nonempty value; otherwise empty — lower-cased).  The sort is stable
(entries of equal key keep their input order), sorted by code-point
lexicographic order, and records with empty key precede all others.
The key differs from the Name Canonicalization derivation, which uses
the *first* `FN` line (`C5_counterexample`). -/
theorem C5_amended (lines : List Str) :
    sortContactsByName lines =
        flattenContacts (sortPairs ((lines.foldl sortStep ([], [])).1)) ∧
      (∀ k, (sortPairs ((lines.foldl sortStep ([], [])).1)).filter
          (fun p => p.1 == k) =
        ((lines.foldl sortStep ([], [])).1).filter (fun p => p.1 == k)) ∧
      (sortPairs ((lines.foldl sortStep ([], [])).1)).Pairwise contactRel ∧
      (sortPairs ((lines.foldl sortStep ([], [])).1)).Pairwise
        (fun a b => b.1 = [] → a.1 = []) :=
  ⟨rfl, fun k => filter_sortPairs k _, sortPairs_sorted _, sortPairs_empty_first _⟩

/-- **C5, counterexample.** The claim says the sort key equals the
Name Canonicalization display-name derivation (first `FN` kept).  The
code keys on the *last* `FN` line instead: a record with `FN:Zed`
before `FN:Adam` sorts under `adam`, so it stays before `FN:Bob`
instead of after it as the claim requires. -/
theorem C5_counterexample :
    sortContactsByName
        [chars "BEGIN:VCARD\n", chars "FN:Zed\n", chars "FN:Adam\n",
         chars "END:VCARD\n", chars "BEGIN:VCARD\n", chars "FN:Bob\n",
         chars "END:VCARD\n"] =
      [chars "BEGIN:VCARD\n", chars "FN:Zed\n", chars "FN:Adam\n",
       chars "END:VCARD\n", chars "\n", chars "BEGIN:VCARD\n",
       chars "FN:Bob\n", chars "END:VCARD\n", chars "\n"] ∧
    extract_contact_name
        [chars "BEGIN:VCARD\n", chars "FN:Zed\n", chars "FN:Adam\n",
         chars "END:VCARD\n"] = chars "adam" ∧
    [chars "BEGIN:VCARD\n", chars "FN:Zed\n", chars "FN:Adam\n",
       chars "END:VCARD\n", chars "\n", chars "BEGIN:VCARD\n",
       chars "FN:Bob\n", chars "END:VCARD\n", chars "\n"] ≠
      [chars "BEGIN:VCARD\n", chars "FN:Bob\n", chars "END:VCARD\n",
       chars "\n", chars "BEGIN:VCARD\n", chars "FN:Zed\n",
       chars "FN:Adam\n", chars "END:VCARD\n", chars "\n"] := by
  refine ⟨by decide, by decide, by decide⟩


/-! ## Claim C6 -/

/-- **C6, counterexample.** The claim says a record with an `N` field
and no `FN` field gets a synthesized `FN`.  The code only synthesizes
when the last `N` line's value is *nonempty* (Python truthiness of
`n_line`): a record containing just `N:` gets no `FN` line at all,
where the claim demands the (empty) synthesis `FN:`. -/
theorem C6_counterexample :
    formatContactNames
        [chars "BEGIN:VCARD\n", chars "N:\n", chars "END:VCARD\n"] =
      [chars "BEGIN:VCARD\n", chars "END:VCARD\n", chars "\n"] ∧
    [chars "BEGIN:VCARD\n", chars "END:VCARD\n", chars "\n"] ≠
      [chars "BEGIN:VCARD\n", chars "FN:\n", chars "END:VCARD\n", chars "\n"] := by
  refine ⟨by decide, by decide⟩

/-- The first `FN` line of a record, stripped (`fn_line`). -/
def fcnFirstFN (cl : List Str) : Option Str := (cl.find? isFNLine).map pyStrip

/-- The value (after `N:`) of the last `N` line of a record
(`n_line`). -/
def fcnLastN (cl : List Str) : Option Str :=
  (cl.reverse.find? isNLine).map (fun l => (pyStrip l).drop 2)

/-- The lines a record keeps besides name fields and marker-prefixed
lines (`other_lines`). -/
def fcnKept (cl : List Str) : List Str :=
  cl.filter (fun l => !isFNLine l && !isNLine l && !isBeginPre l && !isEndPre l)

theorem isNLine_eq_false_of_isFNLine {l : Str} (h : isFNLine l = true) :
    isNLine l = false := by
  by_contra h2
  rw [Bool.not_eq_false] at h2
  exact not_both_isPrefixOf (show 'F' ≠ 'N' by decide) h h2

theorem find?_append_single {A : Type} (p : A → Bool) :
    ∀ (xs : List A) (l : A),
      List.find? p (xs ++ [l]) =
        (List.find? p xs).orElse (fun _ => if p l then some l else none)
  | [], l => by
    cases hp : p l
    · simp [List.find?_cons_of_neg, hp]
    · simp [List.find?_cons_of_pos, hp]
  | x :: xs, l => by
    by_cases hx : p x = true
    · simp [List.find?_cons_of_pos, hx]
    · rw [List.cons_append, List.find?_cons_of_neg _ (by simp [hx]),
        List.find?_cons_of_neg _ (by simp [hx]), find?_append_single p xs l]

/-- The scan loop of `process_contact` computes exactly: the first
`FN` line (unless one was already recorded), the last `N` value
(unless none occurs, in which case the incoming one is kept), and the
filtered other lines appended in order. -/
theorem fcnScan_spec :
    ∀ (cl : List Str) (fn n : Option Str) (oth : List Str),
      cl.foldl fcnScanStep (fn, n, oth) =
        (fn <|> fcnFirstFN cl, (fcnLastN cl <|> n : Option Str), oth ++ fcnKept cl)
  | [], fn, n, oth => by simp [fcnFirstFN, fcnLastN, fcnKept]
  | l :: cl, fn, n, oth => by
    rw [List.foldl_cons]
    by_cases hfn : isFNLine l = true
    · have hstep : fcnScanStep (fn, n, oth) l =
          ((if fn.isSome then fn else some (pyStrip l)), n, oth) := by
        unfold fcnScanStep
        simp only [hfn, if_true]
      rw [hstep, fcnScan_spec cl _ n oth]
      have h1 : fcnFirstFN (l :: cl) = some (pyStrip l) := by
        unfold fcnFirstFN
        rw [List.find?_cons_of_pos _ hfn]
        rfl
      have h2 : fcnLastN (l :: cl) = fcnLastN cl := by
        unfold fcnLastN
        rw [List.reverse_cons, find?_append_single,
          isNLine_eq_false_of_isFNLine hfn]
        simp
      have h3 : fcnKept (l :: cl) = fcnKept cl := by
        unfold fcnKept
        rw [List.filter_cons]
        simp [hfn]
      rw [h1, h2, h3]
      cases fn <;> simp
    · by_cases hn : isNLine l = true
      · have hstep : fcnScanStep (fn, n, oth) l =
            (fn, some ((pyStrip l).drop 2), oth) := by
          unfold fcnScanStep
          simp only [hfn, Bool.false_eq_true, if_false, hn, if_true]
        rw [hstep, fcnScan_spec cl fn _ oth]
        have h1 : fcnFirstFN (l :: cl) = fcnFirstFN cl := by
          unfold fcnFirstFN
          rw [List.find?_cons_of_neg _ (by simp [hfn])]
        have h3 : fcnKept (l :: cl) = fcnKept cl := by
          unfold fcnKept
          rw [List.filter_cons]
          simp [hn]
        rw [h1, h3]
        have h2 : fcnLastN (l :: cl) =
            (fcnLastN cl <|> some ((pyStrip l).drop 2) : Option Str) := by
          unfold fcnLastN
          rw [List.reverse_cons, find?_append_single, hn]
          cases hfind : List.find? isNLine cl.reverse <;> simp
        rw [h2]
        cases hfind : fcnLastN cl <;> simp
      · by_cases hmk : (isBeginPre l || isEndPre l) = true
        · have hstep : fcnScanStep (fn, n, oth) l = (fn, n, oth) := by
            unfold fcnScanStep
            simp only [hfn, Bool.false_eq_true, if_false, hn, hmk, if_true]
          rw [hstep, fcnScan_spec cl fn n oth]
          have h1 : fcnFirstFN (l :: cl) = fcnFirstFN cl := by
            unfold fcnFirstFN
            rw [List.find?_cons_of_neg _ (by simp [hfn])]
          have h2 : fcnLastN (l :: cl) = fcnLastN cl := by
            unfold fcnLastN
            rw [List.reverse_cons, find?_append_single]
            simp [eq_false_of_ne_true hn]
          have h3 : fcnKept (l :: cl) = fcnKept cl := by
            unfold fcnKept
            rw [List.filter_cons]
            have : (!isFNLine l && !isNLine l && !isBeginPre l && !isEndPre l) = false := by
              rcases Bool.or_eq_true_iff.mp hmk with h | h <;> simp [h]
            simp [this]
          rw [h1, h2, h3]
        · have hstep : fcnScanStep (fn, n, oth) l = (fn, n, oth ++ [l]) := by
            unfold fcnScanStep
            simp only [hfn, Bool.false_eq_true, if_false, hn, hmk]
          rw [hstep, fcnScan_spec cl fn n (oth ++ [l])]
          have h1 : fcnFirstFN (l :: cl) = fcnFirstFN cl := by
            unfold fcnFirstFN
            rw [List.find?_cons_of_neg _ (by simp [hfn])]
          have h2 : fcnLastN (l :: cl) = fcnLastN cl := by
            unfold fcnLastN
            rw [List.reverse_cons, find?_append_single]
            simp [eq_false_of_ne_true hn]
          have h3 : fcnKept (l :: cl) = l :: fcnKept cl := by
            unfold fcnKept
            rw [List.filter_cons]
            have hb : isBeginPre l = false := by
              rcases Bool.or_eq_false_iff.mp (eq_false_of_ne_true hmk) with ⟨h, _⟩
              exact h
            have he : isEndPre l = false := by
              rcases Bool.or_eq_false_iff.mp (eq_false_of_ne_true hmk) with ⟨_, h⟩
              exact h
            simp [hfn, hn, hb, he]
          rw [h1, h2, h3]
          simp

/-- **C6 (amended).** `process_contact` of the Name Canonicalization
Pass rebuilds a record as: canonical begin marker; then the first `FN`
line (whitespace-stripped) if one exists, else — when the *last* `N`
line has a nonempty value — an `FN` synthesized from that value's
given, additional and family components (joined by single spaces,
empty components skipped), else no `FN` at all (in particular for
`N:` with empty value, contrary to the unconditional synthesis the
claim states); then all lines that are not `FN`/`N` lines and whose
stripped upper form does not start with `BEGIN:VCARD` or `END:VCARD`,
in original order; then the canonical end marker. -/
theorem C6_amended (cl : List Str) :
    fcnProcessContact cl =
      [chars "BEGIN:VCARD\n"] ++
        (match fcnFirstFN cl with
         | some f => [f ++ chars "\n"]
         | none =>
           match fcnLastN cl with
           | some nv =>
             if nv.isEmpty then [] else [chars "FN:" ++ nameFromN nv ++ chars "\n"]
           | none => []) ++
        fcnKept cl ++ [chars "END:VCARD\n"] := by
  unfold fcnProcessContact
  rw [fcnScan_spec cl none none []]
  unfold fcnBuild
  simp only [Option.none_orElse, Option.orElse_none, List.nil_append]
  cases hf : fcnFirstFN cl with
  | some f => rfl
  | none =>
    cases hn : fcnLastN cl with
    | some nv =>
      by_cases he : nv.isEmpty
      · simp only [he, if_true]
      · simp only [he, Bool.false_eq_true, if_false]
    | none => rfl


/-! ## Claim C7 -/

/-- **C7, counterexample.** Marker lines are *not* emitted exactly as
they appeared: `formatContactNames` re-emits the literal canonical
markers, so a record delimited by lower-case `begin:vcard` /
`end:vcard` (recognized case-insensitively) comes out with different
marker lines than it had. -/
theorem C7_counterexample :
    formatContactNames [chars "begin:vcard\n", chars "end:vcard\n"] =
        [chars "BEGIN:VCARD\n", chars "END:VCARD\n", chars "\n"] ∧
      chars "begin:vcard\n" ∉
        formatContactNames [chars "begin:vcard\n", chars "end:vcard\n"] := by
  refine ⟨by decide, by decide⟩

/-- **C7 (amended).** Markers are re-emitted canonically rather than
copied: every record block produced by the Name Canonicalization Pass
begins with the literal line `BEGIN:VCARD` and ends with the literal
`END:VCARD` (whatever spelling the input markers had), and the
Format-Revision Upgrade Pass re-emits each marker-classified line as
its whitespace-stripped text plus a newline (case preserved, padding
dropped).  Consequently markers appear in the output exactly as in the
input precisely when they already have those canonical forms. -/
theorem C7_amended :
    (∀ cl : List Str,
      (fcnProcessContact cl).head? = some (chars "BEGIN:VCARD\n") ∧
      (fcnProcessContact cl).getLast? = some (chars "END:VCARD\n")) ∧
    (∀ l : Str,
      pyUpper (pyStrip l) = chars "BEGIN:VCARD" ∨
        pyUpper (pyStrip l) = chars "END:VCARD" →
      upgLineOut l = some (pyStrip l ++ chars "\n")) := by
  constructor
  · intro cl
    unfold fcnProcessContact fcnBuild
    constructor
    · rfl
    · rw [show ∀ (M K : List Str),
          [chars "BEGIN:VCARD\n"] ++ M ++ K ++ [chars "END:VCARD\n"] =
            ([chars "BEGIN:VCARD\n"] ++ M ++ K) ++ [chars "END:VCARD\n"]
          from fun M K => by simp]
      exact List.getLast?_concat _
  · intro l h
    unfold upgLineOut
    have hv : ¬ pyUpper (pyStrip l) = chars "VERSION:2.1" := by
      rcases h with h | h <;> rw [h] <;> decide
    rw [if_neg hv, if_pos h]

/-- Witness for `C7_amended`: a padded lower-case begin marker is
re-emitted stripped by the upgrade pass. -/
theorem C7_witness :
    upgLineOut (chars " begin:vcard \n") =
      some (pyStrip (chars " begin:vcard \n") ++ chars "\n") :=
  C7_amended.2 (chars " begin:vcard \n") (Or.inl (by decide))


/-! ## Claim C8 -/

/-- **C8, counterexample.** The claim says a failed decode emits "the
original undecoded line unchanged at that position".  For a
soft-wrapped flagged line this is false: the handler appends the
variable `line`, which holds only the *last* physical fragment.  Here
the logical line `K;ENCODING=QUOTED-PRINTABLE:=FF=FE` (reassembled
from `...=FF=` and `=FE`) fails to decode — the real
`quopri.decodestring("=FF=FE").decode("utf-8")` raises, since bytes
`FF FE` are not valid UTF-8, which the constant-failure decoder models
at this input — and the output contains only `=FE`, not the original
flagged line. -/
theorem C8_counterexample :
    convertToReadable (fun _ => none)
        [chars "K;ENCODING=QUOTED-PRINTABLE:=FF=\n", chars "=FE\n"] =
      ([chars "=FE\n"], [chars "K;ENCODING=QUOTED-PRINTABLE:=FF=FE"]) ∧
    chars "K;ENCODING=QUOTED-PRINTABLE:=FF=\n" ∉
      (convertToReadable (fun _ => none)
        [chars "K;ENCODING=QUOTED-PRINTABLE:=FF=\n", chars "=FE\n"]).1 := by
  refine ⟨by decide, by decide⟩

/-- **C8 (amended).** When the (possibly reassembled) logical line is
flagged with the quoted-printable encoding marker, splits at a colon,
and the external decode fails, the Line Reassembler emits the *last
raw physical line* of that logical line unchanged at that position —
which is the original line itself whenever no continuation was in
progress — records one diagnostic carrying the logical line, resets
the continuation state, and continues with the remaining lines; being
a total function of the remaining input, no exception escapes. -/
theorem C8_amended (decode : Str → Option Str) (buf : Str) (pb : Bool)
    (line : Str) (rest : List Str) (key encoded : Str)
    (h1 : lastIs '=' (rstripCRLF line) = false)
    (h2 : hasSub (chars "ENCODING=QUOTED-PRINTABLE")
        (if pb then buf ++ rstripCRLF line else rstripCRLF line) = true)
    (h3 : splitOnce ':' (if pb then buf ++ rstripCRLF line else rstripCRLF line) =
        some (key, encoded))
    (h4 : decode encoded = none) :
    ctrGo decode buf pb (line :: rest) =
      (line :: (ctrGo decode (if pb then [] else buf) false rest).1,
       (if pb then buf ++ rstripCRLF line else rstripCRLF line) ::
         (ctrGo decode (if pb then [] else buf) false rest).2) := by
  simp only [ctrGo, h1, Bool.false_eq_true, if_false, h2, if_true, h3, h4]

/-- Witness for `C8_amended` on an unwrapped flagged line followed by
a further line that keeps being processed. -/
theorem C8_witness :
    ctrGo (fun _ => none) [] false
        [chars "X;ENCODING=QUOTED-PRINTABLE:=FF\n", chars "FN:A\n"] =
      (chars "X;ENCODING=QUOTED-PRINTABLE:=FF\n" ::
        (ctrGo (fun _ => none)
          (if false then ([] : Str) else []) false [chars "FN:A\n"]).1,
       (if false then [] ++ rstripCRLF (chars "X;ENCODING=QUOTED-PRINTABLE:=FF\n")
        else rstripCRLF (chars "X;ENCODING=QUOTED-PRINTABLE:=FF\n")) ::
         (ctrGo (fun _ => none)
           (if false then ([] : Str) else []) false [chars "FN:A\n"]).2) :=
  C8_amended (fun _ => none) [] false (chars "X;ENCODING=QUOTED-PRINTABLE:=FF\n")
    [chars "FN:A\n"] (chars "X;ENCODING=QUOTED-PRINTABLE") (chars "=FF")
    (by decide) (by decide) (by decide) rfl


/-! ## Claim C9 -/

section Discard

variable {A B : Type}

/-- Folding over marker-free lines never changes the output component
of a grouper state. -/
theorem discard_out_foldl (step : A × B → Str → A × B)
    (hO : ∀ (s : A × B) (l : Str), isBeginMark l = false → isEndMark l = false →
      (step s l).1 = s.1) :
    ∀ (mid : List Str), (∀ l ∈ mid, isBeginMark l = false ∧ isEndMark l = false) →
      ∀ s : A × B, (List.foldl step s mid).1 = s.1
  | [], _, _ => rfl
  | l :: mid, hmid, s => by
    rw [List.foldl_cons,
      discard_out_foldl step hO mid (fun x hx => hmid x (by simp [hx])) (step s l)]
    exact hO s l (hmid l (by simp)).1 (hmid l (by simp)).2

/-- An unterminated trailing record leaves the output component
untouched. -/
theorem discard_tail_foldl (step : A × B → Str → A × B) (newBuf : Str → B)
    (hB : ∀ (s : A × B) (l : Str), isBeginMark l = true → step s l = (s.1, newBuf l))
    (hO : ∀ (s : A × B) (l : Str), isBeginMark l = false → isEndMark l = false →
      (step s l).1 = s.1)
    (init : A × B) (pre mid : List Str) (b : Str)
    (hb : isBeginMark b = true)
    (hmid : ∀ l ∈ mid, isBeginMark l = false ∧ isEndMark l = false) :
    (List.foldl step init (pre ++ b :: mid)).1 = (List.foldl step init pre).1 := by
  rw [List.foldl_append, List.foldl_cons, hB _ b hb,
    discard_out_foldl step hO mid hmid _]

/-- A record restarted by a second begin marker contributes nothing:
the whole discarded segment can be cut from the input without changing
the fold. -/
theorem discard_repeated_foldl (step : A × B → Str → A × B) (newBuf : Str → B)
    (hB : ∀ (s : A × B) (l : Str), isBeginMark l = true → step s l = (s.1, newBuf l))
    (hO : ∀ (s : A × B) (l : Str), isBeginMark l = false → isEndMark l = false →
      (step s l).1 = s.1)
    (init : A × B) (pre mid rest : List Str) (b b2 : Str)
    (hb : isBeginMark b = true) (hb2 : isBeginMark b2 = true)
    (hmid : ∀ l ∈ mid, isBeginMark l = false ∧ isEndMark l = false) :
    List.foldl step init (pre ++ b :: mid ++ b2 :: rest) =
      List.foldl step init (pre ++ b2 :: rest) := by
  calc List.foldl step init (pre ++ b :: mid ++ b2 :: rest)
      = List.foldl step (List.foldl step init (pre ++ b :: mid)) (b2 :: rest) := by
        rw [List.foldl_append]
    _ = List.foldl step (step (List.foldl step init (pre ++ b :: mid)) b2) rest := by
        rw [List.foldl_cons]
    _ = List.foldl step
          ((List.foldl step init (pre ++ b :: mid)).1, newBuf b2) rest := by
        rw [hB _ b2 hb2]
    _ = List.foldl step ((List.foldl step init pre).1, newBuf b2) rest := by
        rw [discard_tail_foldl step newBuf hB hO init pre mid b hb hmid]
    _ = List.foldl step (step (List.foldl step init pre) b2) rest := by
        rw [hB _ b2 hb2]
    _ = List.foldl step (List.foldl step init pre) (b2 :: rest) := by
        rw [List.foldl_cons]
    _ = List.foldl step init (pre ++ b2 :: rest) := by
        rw [List.foldl_append]

end Discard

theorem rofStep_begin (s : List Str × List Str) (l : Str)
    (h : isBeginMark l = true) : rofStep s l = (s.1, [l]) := by
  unfold rofStep
  simp only [h, if_true]

theorem rofStep_other (s : List Str × List Str) (l : Str)
    (h1 : isBeginMark l = false) (h2 : isEndMark l = false) :
    (rofStep s l).1 = s.1 := by
  unfold rofStep
  simp only [h1, h2, Bool.false_eq_true, if_false]
  split <;> rfl

theorem fcnStep_begin (s : List Str × List Str) (l : Str)
    (h : isBeginMark l = true) : fcnStep s l = (s.1, [l]) := by
  unfold fcnStep
  simp only [h, if_true]

theorem fcnStep_other (s : List Str × List Str) (l : Str)
    (h1 : isBeginMark l = false) (h2 : isEndMark l = false) :
    (fcnStep s l).1 = s.1 := by
  unfold fcnStep
  simp only [h1, h2, Bool.false_eq_true, if_false]

theorem upgStep_begin (s : List Str × List Str) (l : Str)
    (h : isBeginMark l = true) : upgStep s l = (s.1, [l]) := by
  unfold upgStep
  simp only [h, if_true]

theorem upgStep_other (s : List Str × List Str) (l : Str)
    (h1 : isBeginMark l = false) (h2 : isEndMark l = false) :
    (upgStep s l).1 = s.1 := by
  unfold upgStep
  simp only [h1, h2, Bool.false_eq_true, if_false]

theorem sortStep_begin (s : List (Str × List Str) × List Str) (l : Str)
    (h : isBeginMark l = true) : sortStep s l = (s.1, [l]) := by
  unfold sortStep
  simp only [h, if_true]

theorem sortStep_other (s : List (Str × List Str) × List Str) (l : Str)
    (h1 : isBeginMark l = false) (h2 : isEndMark l = false) :
    (sortStep s l).1 = s.1 := by
  unfold sortStep
  simp only [h1, h2, Bool.false_eq_true, if_false]

/-- **C9.** For each record-scoped pass, lines buffered after a begin
marker that is followed by another begin marker before any end marker
(first four conjuncts), and the lines of a record left unterminated at
the end of input (last four), are silently discarded: the pass's
output is the same as if that whole segment were absent, so none of
those buffered lines reaches the output. -/
theorem C9_discard (pre mid rest : List Str) (b b2 : Str)
    (hb : isBeginMark b = true) (hb2 : isBeginMark b2 = true)
    (hmid : ∀ l ∈ mid, isBeginMark l = false ∧ isEndMark l = false) :
    (removeOptionalFields (pre ++ b :: mid ++ b2 :: rest) =
      removeOptionalFields (pre ++ b2 :: rest)) ∧
    (formatContactNames (pre ++ b :: mid ++ b2 :: rest) =
      formatContactNames (pre ++ b2 :: rest)) ∧
    (upgradeVcfVersion (pre ++ b :: mid ++ b2 :: rest) =
      upgradeVcfVersion (pre ++ b2 :: rest)) ∧
    (sortContactsByName (pre ++ b :: mid ++ b2 :: rest) =
      sortContactsByName (pre ++ b2 :: rest)) ∧
    (removeOptionalFields (pre ++ b :: mid) = removeOptionalFields pre) ∧
    (formatContactNames (pre ++ b :: mid) = formatContactNames pre) ∧
    (upgradeVcfVersion (pre ++ b :: mid) = upgradeVcfVersion pre) ∧
    (sortContactsByName (pre ++ b :: mid) = sortContactsByName pre) := by
  refine ⟨?_, ?_, ?_, ?_, ?_, ?_, ?_, ?_⟩
  · unfold removeOptionalFields
    rw [discard_repeated_foldl rofStep (fun l => [l]) rofStep_begin rofStep_other
      _ pre mid rest b b2 hb hb2 hmid]
  · unfold formatContactNames
    rw [discard_repeated_foldl fcnStep (fun l => [l]) fcnStep_begin fcnStep_other
      _ pre mid rest b b2 hb hb2 hmid]
  · unfold upgradeVcfVersion
    rw [discard_repeated_foldl upgStep (fun l => [l]) upgStep_begin upgStep_other
      _ pre mid rest b b2 hb hb2 hmid]
  · unfold sortContactsByName
    rw [discard_repeated_foldl sortStep (fun l => [l]) sortStep_begin sortStep_other
      _ pre mid rest b b2 hb hb2 hmid]
  · unfold removeOptionalFields
    rw [discard_tail_foldl rofStep (fun l => [l]) rofStep_begin rofStep_other
      _ pre mid b hb hmid]
  · unfold formatContactNames
    rw [discard_tail_foldl fcnStep (fun l => [l]) fcnStep_begin fcnStep_other
      _ pre mid b hb hmid]
  · unfold upgradeVcfVersion
    rw [discard_tail_foldl upgStep (fun l => [l]) upgStep_begin upgStep_other
      _ pre mid b hb hmid]
  · unfold sortContactsByName
    rw [discard_tail_foldl sortStep (fun l => [l]) sortStep_begin sortStep_other
      _ pre mid b hb hmid]

/-- Witness for `C9_discard`: a restarted record's buffered `FN:X`
line is dropped by Optional-Field Pruning. -/
theorem C9_witness :
    removeOptionalFields
        ([] ++ chars "BEGIN:VCARD\n" :: [chars "FN:X\n"] ++
          chars "BEGIN:VCARD\n" :: [chars "FN:Y\n", chars "END:VCARD\n"]) =
      removeOptionalFields
        ([] ++ chars "BEGIN:VCARD\n" :: [chars "FN:Y\n", chars "END:VCARD\n"]) :=
  (C9_discard [] [chars "FN:X\n"] [chars "FN:Y\n", chars "END:VCARD\n"]
    (chars "BEGIN:VCARD\n") (chars "BEGIN:VCARD\n")
    (by decide) (by decide) (by decide)).1

end CLP
